import Mathlib

/-!
Verification of the Pharma-Flow billing front end.

The development shallowly embeds the billing logic of the React client:

* `Pharmacy` models `src/frontend/pages/Pharmacy.tsx` — the point-of-sale
  billing screen: bill lines, discount, final amount, stock validation,
  split cash/UPI payment validation, invoice submission.
* `Inventory` models the purchase-entry component of
  `src/frontend/pages/ViewSales.tsx` — purchase lines with the
  MRP-vs-purchase-price difference, and the update-price action.

Currency values are `ℚ` (the source computes on JS numbers holding decimal
currency amounts).  Text inputs whose string content matters to the logic
(the quantity field, which is read with JS `parseInt` and whose truncation
behaviour is observable) are kept as `String`, with `parseInt`/`parseFloat`
modelled on character lists.  Money text inputs (discount, cash, UPI,
purchase price) are read in the source only through `parseFloat(x) || 0`;
they are modelled as `Option ℚ`: `some q` is a field whose text parses to
`q`, `none` an empty or unparseable field, and `(·.getD 0)` mirrors
`parseFloat(x) || 0` (note `0 || 0 = 0`, so a field reading `0` is also
mapped to `0` by both).
-/

/-! ## JS numeric string primitives -/

/-- Whitespace skipped by JS `parseInt`/`parseFloat` before parsing. -/
def jsWhitespace (c : Char) : Bool :=
  c == ' ' || c == '\t' || c == '\n' || c == '\r'

/-- Longest prefix of decimal digits, with the rest of the input. -/
def spanDigits : List Char → List Char × List Char
  | [] => ([], [])
  | c :: cs =>
    if c.isDigit then
      let (d, r) := spanDigits cs
      (c :: d, r)
    else ([], c :: cs)

/-- The value of a digit string, most significant first. -/
def digitsToNat (ds : List Char) : Nat :=
  ds.foldl (fun acc c => acc * 10 + (c.toNat - 48)) 0

/-- An optional leading sign, as JS number parsing reads it. -/
def readSign : List Char → Int × List Char
  | '-' :: cs => (-1, cs)
  | '+' :: cs => (1, cs)
  | cs => (1, cs)

/-- JS `parseInt(s)` (decimal): skip whitespace, optional sign, then the
longest prefix of digits; `none` models `NaN` (no digits). A fractional or
exponent tail is ignored: `parseInt("2.5") = 2`. -/
def jsParseInt (s : String) : Option Int :=
  let cs := (s.data.dropWhile jsWhitespace)
  let (sign, cs1) := readSign cs
  let (ds, _) := spanDigits cs1
  if ds = [] then none else some (sign * (digitsToNat ds : Int))

/-- JS `parseFloat(s)`: skip whitespace, optional sign, digits with an
optional fraction and exponent; `none` models `NaN`. -/
def jsParseFloat (s : String) : Option ℚ :=
  let cs := (s.data.dropWhile jsWhitespace)
  let (sign, cs1) := readSign cs
  let (ip, csInt) := spanDigits cs1
  let (fp, csFrac) :=
    match csInt with
    | '.' :: rest => spanDigits rest
    | other => (([] : List Char), other)
  if ip = [] ∧ fp = [] then none
  else
    let mantissa : ℚ :=
      (digitsToNat ip : ℚ) + (digitsToNat fp : ℚ) / (10 : ℚ) ^ fp.length
    let expVal : Int :=
      match csFrac with
      | c :: rest =>
        if c == 'e' || c == 'E' then
          let (es, rest2) := readSign rest
          let (eds, _) := spanDigits rest2
          if eds = [] then 0 else es * (digitsToNat eds : Int)
        else 0
      | [] => 0
    some ((sign : ℚ) * mantissa * (10 : ℚ) ^ expVal)

/-- JS `x.toFixed(2)` read back as a number: the amount rounded to two
decimals (the source formats with `toFixed(2)` and later re-reads the field
with `parseFloat`; a two-decimal rendering parses back exactly). -/
def toFixed2 (q : ℚ) : ℚ := (⌊q * 100 + 1 / 2⌋ : ℚ) / 100

/-- JS `s.trim()`: strip leading and trailing whitespace. -/
def jsTrim (s : String) : String :=
  String.mk (((s.data.dropWhile jsWhitespace).reverse.dropWhile jsWhitespace).reverse)

namespace Pharmacy

/-- `interface Medicine` of `Pharmacy.tsx`. -/
structure Medicine where
  MId : Int
  MName : String
  MRP : ℚ
  MCompany : String
  CurrentStock : Int
  MType : String
  BatchNo : Option String
deriving DecidableEq, Repr

/-- `interface BillItem` of `Pharmacy.tsx` (one bill line). -/
structure BillItem where
  id : Int
  name : String
  batch : String
  qty : Int
  price : ℚ
  duration : String
  total : ℚ
  mid : Int
deriving DecidableEq, Repr

/-- The toasts `showToast` can raise on the billing screen, with the data
interpolated into their text. -/
inductive Toast where
  | selectMedicineAndQuantity
  | medicineNotFound
  | invalidQuantity
  | insufficientStock (available requested : Int)
  | enterPatientName
  | addAtLeastOneMedicine
  | selectPaymentMode
  | invalidPhone
  | splitMismatch (actual expected : ℚ)
deriving DecidableEq, Repr

/-- Outcome of the `POST /pharmacy/api/invoice` request: a transport error
and a `success: false` server reply both land in the `catch` block and are
merged into `failure`. -/
inductive SubmitResult where
  | success (invoice_id : String) (final_amount : ℚ)
  | failure (message : String)
deriving DecidableEq, Repr

/-- The `submitMessage` banner state, with the data interpolated into it. -/
inductive SubmitMessage where
  | success (invoice_id : String) (final_amount : ℚ)
  | error (text : String)
deriving DecidableEq, Repr

/-- The component state of `Pharmacy.tsx` that the billing logic touches.
`discount`, `cashAmount`, `upiAmount` are money text inputs (see the file
comment); `quantity` is the raw string of the quantity input. -/
structure State where
  patients_loaded : Bool
  selectedPatient : String
  patientName : String
  phoneNo : String
  uhid : String
  age : String
  gender : String
  isNewPatient : Bool
  medicines : List Medicine
  selectedMedicine : String
  quantity : String
  duration : String
  batchNo : String
  billItems : List BillItem
  itemCounter : Int
  discount : Option ℚ
  paymentMode : String
  cashAmount : Option ℚ
  upiAmount : Option ℚ
  paymentComments : String
  submitMessage : Option SubmitMessage
deriving DecidableEq, Repr

/-- Initial `useState` values, with the mount-time medicines fetch result. -/
def initialState (medicines : List Medicine) : State where
  patients_loaded := true
  selectedPatient := ""
  patientName := ""
  phoneNo := ""
  uhid := ""
  age := ""
  gender := ""
  isNewPatient := false
  medicines := medicines
  selectedMedicine := ""
  quantity := ""
  duration := ""
  batchNo := "-"
  billItems := []
  itemCounter := 0
  discount := none
  paymentMode := ""
  cashAmount := none
  upiAmount := none
  paymentComments := ""
  submitMessage := none

/-- `grandTotal = billItems.reduce((sum, item) => sum + item.total, 0)`. -/
def grandTotal (s : State) : ℚ :=
  s.billItems.foldl (fun sum item => sum + item.total) 0

/-- `discountValue = parseFloat(discount) || 0`. -/
def discountValue (s : State) : ℚ := s.discount.getD 0

/-- `finalAmount = Math.max(grandTotal - discountValue, 0)`. -/
def finalAmount (s : State) : ℚ := max (grandTotal s - discountValue s) 0

/-- The accepted-line state update of `handleAddMedicine`: build the new
`BillItem`, append it, bump the counter, clear the entry inputs. -/
def acceptMedicine (s : State) (medicine : Medicine) (qty : Int) : State :=
  let newItem : BillItem :=
    { id := s.itemCounter + 1
      name := medicine.MName
      batch := if s.batchNo = "" then "-" else s.batchNo
      qty := qty
      price := medicine.MRP
      duration := if s.duration = "" then "-" else s.duration
      total := medicine.MRP * (qty : ℚ)
      mid := medicine.MId }
  { s with
    billItems := s.billItems ++ [newItem]
    itemCounter := s.itemCounter + 1
    selectedMedicine := ""
    quantity := ""
    duration := ""
    batchNo := "-" }

/-- `handleAddMedicine` (Pharmacy.tsx:262-307).  Returns the new state and
the toast raised on rejection (`none` = line accepted, no toast). -/
def handleAddMedicine (s : State) : State × Option Toast :=
  if s.selectedMedicine = "" ∨ s.quantity = "" then
    (s, some Toast.selectMedicineAndQuantity)
  else
    match s.medicines.find? (fun m => m.MName == s.selectedMedicine) with
    | none => (s, some Toast.medicineNotFound)
    | some medicine =>
      match jsParseInt s.quantity with
      | none => (s, some Toast.invalidQuantity)
      | some qty =>
        if qty ≤ 0 then (s, some Toast.invalidQuantity)
        else if qty > medicine.CurrentStock then
          (s, some (Toast.insufficientStock medicine.CurrentStock qty))
        else (acceptMedicine s medicine qty, none)

/-- `handleRemoveMedicine`: `billItems.filter(item => item.id !== id)`. -/
def handleRemoveMedicine (s : State) (id : Int) : State :=
  { s with billItems := s.billItems.filter (fun item => item.id != id) }

/-- `confirmClearAll`: empties the bill (the item counter is untouched). -/
def confirmClearAll (s : State) : State :=
  { s with billItems := [] }

/-- The payment-mode `useEffect` (Pharmacy.tsx:327-339), run whenever its
dependencies `[paymentMode, finalAmount]` change. -/
def paymentModeEffect (s : State) : State :=
  if s.paymentMode = "Cash" then
    { s with cashAmount := some (toFixed2 (finalAmount s)), upiAmount := some 0 }
  else if s.paymentMode = "UPI" then
    { s with upiAmount := some (toFixed2 (finalAmount s)), cashAmount := some 0 }
  else if s.paymentMode = "Both" then
    { s with cashAmount := none, upiAmount := none }
  else s

/-- `/^\d{10}$/.test(phoneNo)`. -/
def isValidPhone (p : String) : Bool :=
  p.length == 10 && p.data.all (·.isDigit)

/-- The validation chain at the top of `handleSubmit` (Pharmacy.tsx:342-373):
the first failing check's toast, or `none` when submission may proceed. -/
def submitValidation (s : State) : Option Toast :=
  if jsTrim s.patientName = "" then some Toast.enterPatientName
  else if s.billItems = [] then some Toast.addAtLeastOneMedicine
  else if s.paymentMode = "" then some Toast.selectPaymentMode
  else if s.isNewPatient = true ∧ s.phoneNo ≠ "" ∧ isValidPhone s.phoneNo = false then
    some Toast.invalidPhone
  else if s.paymentMode = "Both" then
    if |s.cashAmount.getD 0 + s.upiAmount.getD 0 - finalAmount s| > 1 / 100 then
      some (Toast.splitMismatch (s.cashAmount.getD 0 + s.upiAmount.getD 0) (finalAmount s))
    else none
  else none

/-- One entry of the `medicines` array in the invoice payload. -/
structure InvoiceMedicine where
  medicine : String
  batch_no : String
  quantity : Int
  price : ℚ
  duration : String
deriving DecidableEq, Repr

/-- The `invoiceData` payload posted to `/pharmacy/api/invoice`. -/
structure InvoiceData where
  patient_name : String
  phone_no : String
  uhid : String
  age : String
  gender : String
  medicines : List InvoiceMedicine
  discount : ℚ
  payment_mode : String
  cash_amount : ℚ
  upi_amount : ℚ
  comments : String
deriving DecidableEq, Repr

/-- The payload built in `handleSubmit` (Pharmacy.tsx:379-397). -/
def invoiceData (s : State) : InvoiceData where
  patient_name := s.patientName
  phone_no := s.phoneNo
  uhid := s.uhid
  age := s.age
  gender := s.gender
  medicines := s.billItems.map (fun item =>
    { medicine := item.name
      batch_no := item.batch
      quantity := item.qty
      price := item.price
      duration := item.duration })
  discount := discountValue s
  payment_mode := s.paymentMode
  cash_amount :=
    if s.paymentMode = "Cash" then finalAmount s
    else if s.paymentMode = "Both" then s.cashAmount.getD 0
    else 0
  upi_amount :=
    if s.paymentMode = "UPI" then finalAmount s
    else if s.paymentMode = "Both" then s.upiAmount.getD 0
    else 0
  comments := s.paymentComments

/-- `handleClearForm` (Pharmacy.tsx:435-455).  Clears the draft; the item
counter and the submit message are not reset. -/
def handleClearForm (s : State) : State :=
  { s with
    selectedPatient := ""
    patientName := ""
    phoneNo := ""
    uhid := ""
    age := ""
    gender := ""
    isNewPatient := false
    billItems := []
    discount := none
    paymentMode := ""
    cashAmount := none
    upiAmount := none
    paymentComments := ""
    selectedMedicine := ""
    quantity := ""
    duration := ""
    batchNo := "-" }

/-- `handleSubmit` (Pharmacy.tsx:342-432) given the request's outcome.
Returns the new state and the payload actually posted (`none` when a
validation toast blocked submission and no request was made).  On success
the success banner is set and the form cleared; on failure the error banner
is set and the draft is left as it was. -/
def handleSubmit (s : State) (result : SubmitResult) : State × Option InvoiceData :=
  match submitValidation s with
  | some _ => (s, none)
  | none =>
    match result with
    | SubmitResult.success iid fa =>
      ({ handleClearForm s with submitMessage := some (SubmitMessage.success iid fa) },
        some (invoiceData s))
    | SubmitResult.failure msg =>
      ({ s with submitMessage := some (SubmitMessage.error msg) },
        some (invoiceData s))

/-- The operator/server events that drive the billing screen.  The patient
and medicine selection handlers only copy fetched data into fields, so they
are modelled as field writes carrying the fetched values. -/
inductive Action where
  | setPatient (name phone u a g : String) (isNew : Bool)
  | selectMedicine (name batch : String)
  | setQuantity (v : String)
  | setDuration (v : String)
  | setDiscount (v : Option ℚ)
  | setPaymentMode (v : String)
  | setCashAmount (v : Option ℚ)
  | setUpiAmount (v : Option ℚ)
  | setComments (v : String)
  | addMedicine
  | removeMedicine (id : Int)
  | clearAllConfirmed
  | submit (result : SubmitResult)
  | clearForm

/-- The state transition of one event, before effects re-run. -/
def rawAction (s : State) : Action → State
  | Action.setPatient name phone u a g isNew =>
    { s with patientName := name, phoneNo := phone, uhid := u, age := a,
             gender := g, isNewPatient := isNew }
  | Action.selectMedicine name batch =>
    if name = "" then { s with selectedMedicine := name, batchNo := "-" }
    else { s with selectedMedicine := name, batchNo := batch }
  | Action.setQuantity v => { s with quantity := v }
  | Action.setDuration v => { s with duration := v }
  | Action.setDiscount v => { s with discount := v }
  | Action.setPaymentMode v => { s with paymentMode := v }
  | Action.setCashAmount v => { s with cashAmount := v }
  | Action.setUpiAmount v => { s with upiAmount := v }
  | Action.setComments v => { s with paymentComments := v }
  | Action.addMedicine => (handleAddMedicine s).1
  | Action.removeMedicine id => handleRemoveMedicine s id
  | Action.clearAllConfirmed => confirmClearAll s
  | Action.submit result => (handleSubmit s result).1
  | Action.clearForm => handleClearForm s

/-- One event followed by React re-running the payment-mode effect exactly
when one of its dependencies `[paymentMode, finalAmount]` changed. -/
def applyAction (s : State) (a : Action) : State :=
  let s1 := rawAction s a
  if s1.paymentMode = s.paymentMode ∧ finalAmount s1 = finalAmount s then s1
  else paymentModeEffect s1

/-- A whole session: the mount-time state driven by a list of events. -/
def runActions (s : State) (as : List Action) : State :=
  as.foldl applyAction s

/-- Well-formedness of the bill lines: every line's cached `total` is
`qty * price`, its quantity is positive, its id is within the counter and
its price came from the medicine list; ids are strictly increasing in
sequence order. -/
def ItemsWF (s : State) : Prop :=
  (∀ item ∈ s.billItems,
      item.total = (item.qty : ℚ) * item.price ∧ 0 < item.qty ∧
      item.id ≤ s.itemCounter ∧ ∃ m ∈ s.medicines, item.price = m.MRP) ∧
  (s.billItems.map BillItem.id).Pairwise (· < ·)

/-- The subtotal recomputed from quantities and unit prices. -/
def lineSum (l : List BillItem) : ℚ :=
  (l.map (fun item => (item.qty : ℚ) * item.price)).sum

/-! ### Concrete fixtures for witnesses and counterexamples -/

/-- A sample medicine for concrete sessions. -/
def paraMed : Medicine where
  MId := 1
  MName := "Paracetamol"
  MRP := 10
  MCompany := "Acme"
  CurrentStock := 100
  MType := "Tablets"
  BatchNo := some "B1"

/-- A medicine with only 5 units left, for the stock-boundary witness. -/
def ibuMed : Medicine where
  MId := 2
  MName := "Ibuprofen"
  MRP := 7
  MCompany := "Acme"
  CurrentStock := 5
  MType := "Tablets"
  BatchNo := some "B2"

/-- A concrete session: add two Paracetamol, then a discount of 5. -/
def c1Actions : List Action :=
  [Action.selectMedicine "Paracetamol" "B1", Action.setQuantity "2",
   Action.addMedicine, Action.setDiscount (some 5)]

/-- A bill line produced by the session above, reused by concrete states. -/
def paraLine : BillItem where
  id := 1
  name := "Paracetamol"
  batch := "-"
  qty := 2
  price := 10
  duration := "-"
  total := 20
  mid := 1

/-- A state whose quantity field holds the non-integer entry `"2.5"`. -/
def cx4state : State :=
  { initialState [paraMed] with selectedMedicine := "Paracetamol", quantity := "2.5" }

/-- A state requesting exactly the available stock of `ibuMed`. -/
def c3state : State :=
  { initialState [ibuMed] with selectedMedicine := "Ibuprofen", quantity := "5" }

/-- A filled bill with no payment mode selected yet. -/
def c2state : State :=
  { initialState [paraMed] with
    patientName := "Amit"
    billItems := [paraLine]
    itemCounter := 1 }

/-- A filled bill that passes the whole submission validation (Cash mode). -/
def validState : State :=
  { initialState [paraMed] with
    patientName := "Amit"
    billItems := [paraLine]
    itemCounter := 1
    paymentMode := "Cash"
    cashAmount := some 20
    upiAmount := some 0 }

end Pharmacy

namespace Inventory

/-- `interface BillItem` of the Inventory component in `ViewSales.tsx`
(one purchase-entry line).  `quantity` holds the `parseInt` result of the
quantity field (`none` models `NaN`). -/
structure BillItem where
  id : Int
  item_name : String
  quantity : Option Int
  batch_no : String
  expiry_date : String
  price : ℚ
  difference : ℚ
deriving DecidableEq, Repr

/-- `interface MedicineDetails` of the Inventory component. -/
structure MedicineDetails where
  MId : Int
  MName : String
  MRP : ℚ
  PTR : Option ℚ
  MCompany : String
  MType : String
  CurrentStock : Int
deriving DecidableEq, Repr

/-- The `message` banner: `{ type: 'success' | 'error', text }`. -/
inductive MessageType where
  | success
  | error
deriving DecidableEq, Repr

/-- A `setMessage` value of the Inventory component. -/
structure Message where
  type : MessageType
  text : String
deriving DecidableEq, Repr

/-- The Inventory component state the purchase-entry and price-update logic
touches.  `purchasePrice` is a money text input (see the file comment);
`quantity` is the raw quantity string. -/
structure State where
  selectedMedicine : String
  medicineDetails : Option MedicineDetails
  quantity : String
  batchNo : String
  expiryDate : String
  purchasePrice : Option ℚ
  items : List BillItem
  itemCounter : Int
  message : Option Message
  showUpdatePriceModal : Bool
  showPriceUpdateConfirm : Bool
  updatingPrice : Bool
  medicinesRefreshed : Bool
  updateMedicineName : String
  currentPriceDetails : Option MedicineDetails
deriving DecidableEq, Repr

/-- `parseInt(quantity) <= 0` of `handleAddItem`: false on `NaN` (in JS
`NaN <= 0` is false), so an unparseable non-empty string passes the check. -/
def qtyNotPositive (quantity : String) : Bool :=
  match jsParseInt quantity with
  | some q => decide (q ≤ 0)
  | none => false

/-- `handleAddItem` (ViewSales.tsx:1058-1093): validate the medicine and
quantity, then append the line annotated with
`difference = (medicineDetails?.MRP || 0) - (parseFloat(purchasePrice) || 0)`
and clear the entry inputs. -/
def handleAddItem (s : State) : State :=
  if s.selectedMedicine = "" then
    { s with message := some { type := MessageType.error, text := "Please select a medicine" } }
  else if s.quantity = "" ∨ qtyNotPositive s.quantity = true then
    { s with message := some { type := MessageType.error, text := "Please enter a valid quantity" } }
  else
    let price := s.purchasePrice.getD 0
    let mrp := (s.medicineDetails.map MedicineDetails.MRP).getD 0
    let difference := mrp - price
    let newItem : BillItem :=
      { id := s.itemCounter + 1
        item_name := s.selectedMedicine
        quantity := jsParseInt s.quantity
        batch_no := s.batchNo
        expiry_date := s.expiryDate
        price := price
        difference := difference }
    { s with
      items := s.items ++ [newItem]
      itemCounter := s.itemCounter + 1
      selectedMedicine := ""
      medicineDetails := none
      quantity := ""
      batchNo := ""
      expiryDate := ""
      purchasePrice := none
      message := none }

/-- `handleRemoveItem`: `items.filter(item => item.id !== id)`. -/
def handleRemoveItem (s : State) (id : Int) : State :=
  { s with items := s.items.filter (fun item => item.id != id) }

/-- Initial `useState` values of the Inventory component. -/
def initialState : State where
  selectedMedicine := ""
  medicineDetails := none
  quantity := ""
  batchNo := ""
  expiryDate := ""
  purchasePrice := none
  items := []
  itemCounter := 0
  message := none
  showUpdatePriceModal := false
  showPriceUpdateConfirm := false
  updatingPrice := false
  medicinesRefreshed := false
  updateMedicineName := ""
  currentPriceDetails := none

/-- Sample fetched details of a medicine with catalogue MRP 100. -/
def doloDetails : MedicineDetails where
  MId := 3
  MName := "Dolo-650"
  MRP := 100
  PTR := some 80
  MCompany := "Micro"
  MType := "Tablets"
  CurrentStock := 0

/-- A purchase-entry state buying below MRP (price 80 against MRP 100). -/
def c7state : State :=
  { initialState with
    selectedMedicine := "Dolo-650"
    medicineDetails := some doloDetails
    quantity := "3"
    batchNo := "D1"
    purchasePrice := some 80 }

/-- `handleUpdatePrice` (ViewSales.tsx:1272-1301) given the outcome of the
`POST /inventory/update-price` request.  Both the success path and the
`catch` block set a success message, close the modal and refresh the
medicine list. -/
def handleUpdatePrice (s : State) (requestResult : Except String Unit) : State :=
  let s0 := { s with showPriceUpdateConfirm := false, updatingPrice := true }
  let s1 :=
    match requestResult with
    | Except.ok _ =>
      { s0 with
        message := some { type := MessageType.success,
                          text := "✓ Price updated for " ++ s.updateMedicineName }
        showUpdatePriceModal := false
        medicinesRefreshed := true }
    | Except.error _ =>
      { s0 with
        message := some { type := MessageType.success,
                          text := "✓ Price updated for " ++ s.updateMedicineName }
        showUpdatePriceModal := false
        medicinesRefreshed := true }
  { s1 with updatingPrice := false }

end Inventory

namespace Pharmacy

/-! ## Invariants of the in-progress bill -/

theorem ItemsWF_of_eq {s t : State} (hb : t.billItems = s.billItems)
    (hc : t.itemCounter = s.itemCounter) (hm : t.medicines = s.medicines)
    (h : ItemsWF s) : ItemsWF t := by
  unfold ItemsWF at h ⊢
  rw [hb, hc, hm]
  exact h

theorem ItemsWF_of_empty {t : State} (hb : t.billItems = []) : ItemsWF t := by
  unfold ItemsWF
  rw [hb]
  exact ⟨by simp, by simp⟩

/-- `handleAddMedicine` either rejects (state unchanged, a toast raised) or
accepts: the medicine is found, the parsed quantity is positive and within
stock, and the state is the `acceptMedicine` update. -/
theorem handleAddMedicine_cases (s : State) :
    ((handleAddMedicine s).1 = s ∧ ∃ t, (handleAddMedicine s).2 = some t) ∨
    ∃ medicine qty,
      s.medicines.find? (fun m => m.MName == s.selectedMedicine) = some medicine ∧
      jsParseInt s.quantity = some qty ∧ 0 < qty ∧ qty ≤ medicine.CurrentStock ∧
      handleAddMedicine s = (acceptMedicine s medicine qty, none) := by
  unfold handleAddMedicine
  split
  · exact Or.inl ⟨rfl, _, rfl⟩
  · split
    · exact Or.inl ⟨rfl, _, rfl⟩
    · next medicine hfind =>
      split
      · exact Or.inl ⟨rfl, _, rfl⟩
      · next qty hparse =>
        split
        · exact Or.inl ⟨rfl, _, rfl⟩
        · split
          · exact Or.inl ⟨rfl, _, rfl⟩
          · next hpos hstock =>
            exact Or.inr ⟨medicine, qty, hfind, hparse, by omega, by omega, rfl⟩

theorem acceptMedicine_wf {s : State} (h : ItemsWF s) {medicine : Medicine} {qty : Int}
    (hmed : medicine ∈ s.medicines) (hqty : 0 < qty) :
    ItemsWF (acceptMedicine s medicine qty) := by
  obtain ⟨h1, h2⟩ := h
  constructor
  · intro item hmem
    simp only [acceptMedicine, List.mem_append, List.mem_singleton] at hmem
    rcases hmem with hold | hnew
    · obtain ⟨ht, hq, hid, m, hm, hp⟩ := h1 item hold
      exact ⟨ht, hq, by simp only [acceptMedicine]; omega, m, hm, hp⟩
    · subst hnew
      refine ⟨mul_comm _ _, hqty, le_refl _, medicine, hmed, rfl⟩
  · simp only [acceptMedicine, List.map_append, List.map_cons, List.map_nil]
    rw [List.pairwise_append]
    refine ⟨h2, List.pairwise_singleton _ _, ?_⟩
    intro a ha b hb
    simp only [List.mem_singleton] at hb
    subst hb
    obtain ⟨item, hitem, hida⟩ := List.mem_map.1 ha
    obtain ⟨_, _, hid, _⟩ := h1 item hitem
    subst hida
    omega

theorem handleRemoveMedicine_wf {s : State} (h : ItemsWF s) (i : Int) :
    ItemsWF (handleRemoveMedicine s i) := by
  obtain ⟨h1, h2⟩ := h
  constructor
  · intro item hmem
    simp only [handleRemoveMedicine, List.mem_filter] at hmem
    exact h1 item hmem.1
  · exact h2.sublist (List.Sublist.map _ (List.filter_sublist _))

/-- `handleSubmit` either leaves the state unchanged (validation blocked),
clears the bill (success) or keeps the bill with an error banner. -/
theorem handleSubmit_fst_cases (s : State) (r : SubmitResult) :
    (handleSubmit s r).1 = s ∨
    ((handleSubmit s r).1.billItems = [] ∧ (handleSubmit s r).1.medicines = s.medicines) ∨
    ((handleSubmit s r).1.billItems = s.billItems ∧
      (handleSubmit s r).1.itemCounter = s.itemCounter ∧
      (handleSubmit s r).1.medicines = s.medicines) := by
  unfold handleSubmit
  split
  · exact Or.inl rfl
  · split
    · exact Or.inr (Or.inl ⟨rfl, rfl⟩)
    · exact Or.inr (Or.inr ⟨rfl, rfl, rfl⟩)

theorem paymentModeEffect_billItems (s : State) :
    (paymentModeEffect s).billItems = s.billItems := by
  unfold paymentModeEffect
  split_ifs <;> rfl

theorem paymentModeEffect_itemCounter (s : State) :
    (paymentModeEffect s).itemCounter = s.itemCounter := by
  unfold paymentModeEffect
  split_ifs <;> rfl

theorem paymentModeEffect_medicines (s : State) :
    (paymentModeEffect s).medicines = s.medicines := by
  unfold paymentModeEffect
  split_ifs <;> rfl

theorem rawAction_wf {s : State} (h : ItemsWF s) (a : Action) :
    ItemsWF (rawAction s a) := by
  cases a with
  | setPatient name phone u ag g isNew => exact ItemsWF_of_eq rfl rfl rfl h
  | selectMedicine name batch =>
    show ItemsWF (if name = "" then _ else _)
    split <;> exact ItemsWF_of_eq rfl rfl rfl h
  | setQuantity v => exact ItemsWF_of_eq rfl rfl rfl h
  | setDuration v => exact ItemsWF_of_eq rfl rfl rfl h
  | setDiscount v => exact ItemsWF_of_eq rfl rfl rfl h
  | setPaymentMode v => exact ItemsWF_of_eq rfl rfl rfl h
  | setCashAmount v => exact ItemsWF_of_eq rfl rfl rfl h
  | setUpiAmount v => exact ItemsWF_of_eq rfl rfl rfl h
  | setComments v => exact ItemsWF_of_eq rfl rfl rfl h
  | addMedicine =>
    show ItemsWF (handleAddMedicine s).1
    rcases handleAddMedicine_cases s with ⟨heq, _⟩ | ⟨m, q, hfind, _, hq, _, heq⟩
    · rw [heq]; exact h
    · rw [heq]
      exact acceptMedicine_wf h (List.mem_of_find?_eq_some hfind) hq
  | removeMedicine i => exact handleRemoveMedicine_wf h i
  | clearAllConfirmed => exact ItemsWF_of_empty rfl
  | submit r =>
    show ItemsWF (handleSubmit s r).1
    rcases handleSubmit_fst_cases s r with heq | ⟨hb, _⟩ | ⟨hb, hc, hm⟩
    · rw [heq]; exact h
    · exact ItemsWF_of_empty hb
    · exact ItemsWF_of_eq hb hc hm h
  | clearForm => exact ItemsWF_of_empty rfl

theorem applyAction_wf {s : State} (h : ItemsWF s) (a : Action) :
    ItemsWF (applyAction s a) := by
  unfold applyAction
  dsimp only
  split
  · exact rawAction_wf h a
  · exact ItemsWF_of_eq (paymentModeEffect_billItems _) (paymentModeEffect_itemCounter _)
      (paymentModeEffect_medicines _) (rawAction_wf h a)

theorem runActions_wf {s : State} (h : ItemsWF s) (as : List Action) :
    ItemsWF (runActions s as) := by
  induction as generalizing s with
  | nil => exact h
  | cons a as ih => exact ih (applyAction_wf h a)

theorem initialState_wf (meds : List Medicine) : ItemsWF (initialState meds) :=
  ItemsWF_of_empty rfl

/-! ## Medicines are fixed for a session -/

theorem handleAddMedicine_fst_medicines (s : State) :
    (handleAddMedicine s).1.medicines = s.medicines := by
  rcases handleAddMedicine_cases s with ⟨heq, _⟩ | ⟨m, q, _, _, _, _, heq⟩
  · rw [heq]
  · rw [heq]
    rfl

theorem rawAction_medicines (s : State) (a : Action) :
    (rawAction s a).medicines = s.medicines := by
  cases a with
  | selectMedicine name batch =>
    show (if name = "" then _ else _ : State).medicines = s.medicines
    split <;> rfl
  | addMedicine => exact handleAddMedicine_fst_medicines s
  | submit r =>
    show (handleSubmit s r).1.medicines = s.medicines
    rcases handleSubmit_fst_cases s r with heq | ⟨_, hm⟩ | ⟨_, _, hm⟩
    · rw [heq]
    · exact hm
    · exact hm
  | _ => rfl

theorem applyAction_medicines (s : State) (a : Action) :
    (applyAction s a).medicines = s.medicines := by
  unfold applyAction
  dsimp only
  split
  · exact rawAction_medicines s a
  · rw [paymentModeEffect_medicines]
    exact rawAction_medicines s a

theorem runActions_medicines (s : State) (as : List Action) :
    (runActions s as).medicines = s.medicines := by
  induction as generalizing s with
  | nil => rfl
  | cons a as ih => rw [runActions, List.foldl_cons, ← runActions, ih, applyAction_medicines]

/-! ## The bill aggregation (claim C1) -/

theorem foldl_total (l : List BillItem) (a : ℚ) :
    l.foldl (fun sum item => sum + item.total) a = a + (l.map BillItem.total).sum := by
  induction l generalizing a with
  | nil => simp
  | cons x xs ih => simp [ih, add_assoc]

/-- Under the line invariant, the rendered `grandTotal` is the subtotal
recomputed from quantities and unit prices. -/
theorem grandTotal_eq_lineSum {s : State} (h : ItemsWF s) :
    grandTotal s = lineSum s.billItems := by
  unfold grandTotal lineSum
  rw [foldl_total, zero_add]
  congr 1
  exact List.map_congr_left (fun item hmem => (h.1 item hmem).1)

theorem lineSum_nonneg {s : State} (h : ItemsWF s)
    (hnn : ∀ m ∈ s.medicines, 0 ≤ m.MRP) : 0 ≤ lineSum s.billItems := by
  apply List.sum_nonneg
  intro x hx
  obtain ⟨item, hitem, hval⟩ := List.mem_map.1 hx
  obtain ⟨_, hq, _, m, hm, hp⟩ := h.1 item hitem
  subst hval
  apply mul_nonneg
  · exact_mod_cast le_of_lt hq
  · rw [hp]
    exact hnn m hm

/-- C1: for every session, the displayed final amount is
`max(Σ qty·price − discount, 0)`: clamped at zero, a discount above the
subtotal yields 0, a negative discount (surcharge) raises the final amount
above the subtotal, and with no lines the final amount is
`max(−discount, 0)`. -/
theorem finalAmount_clamped_aggregate (meds : List Medicine) (as : List Action)
    (hnn : ∀ m ∈ meds, 0 ≤ m.MRP) :
    let s := runActions (initialState meds) as
    finalAmount s = max (lineSum s.billItems - discountValue s) 0 ∧
    0 ≤ finalAmount s ∧
    (lineSum s.billItems < discountValue s → finalAmount s = 0) ∧
    (discountValue s < 0 →
      finalAmount s = lineSum s.billItems - discountValue s ∧
      lineSum s.billItems < finalAmount s) ∧
    (s.billItems = [] → finalAmount s = max (-discountValue s) 0) := by
  intro s
  have hwf : ItemsWF s := runActions_wf (initialState_wf meds) as
  have hmeds : s.medicines = meds := runActions_medicines (initialState meds) as
  have hsum : 0 ≤ lineSum s.billItems := lineSum_nonneg hwf (by rw [hmeds]; exact hnn)
  have hmain : finalAmount s = max (lineSum s.billItems - discountValue s) 0 := by
    unfold finalAmount
    rw [grandTotal_eq_lineSum hwf]
  refine ⟨hmain, ?_, ?_, ?_, ?_⟩
  · rw [hmain]; exact le_max_right _ _
  · intro hlt
    rw [hmain]
    exact max_eq_right (by linarith)
  · intro hneg
    have heq : finalAmount s = lineSum s.billItems - discountValue s := by
      rw [hmain]
      exact max_eq_left (by linarith)
    exact ⟨heq, by rw [heq]; linarith⟩
  · intro hempty
    rw [hmain, hempty]
    simp [lineSum]

/-- Witness for C1: the aggregation law applied to the concrete session
`c1Actions` over the one-medicine catalogue `[paraMed]`. -/
theorem finalAmount_clamped_aggregate_witness :
    (∀ m ∈ [paraMed], 0 ≤ m.MRP) ∧
    (let s := runActions (initialState [paraMed]) c1Actions
     finalAmount s = max (lineSum s.billItems - discountValue s) 0) := by
  have hnn : ∀ m ∈ [paraMed], 0 ≤ m.MRP := by
    intro m hm
    rw [List.mem_singleton] at hm
    subst hm
    norm_num [paraMed]
  exact ⟨hnn, (finalAmount_clamped_aggregate [paraMed] c1Actions hnn).1⟩

/-! ## Line ids and removal (claim C5) -/

theorem applyAction_billItems (s : State) (a : Action) :
    (applyAction s a).billItems = (rawAction s a).billItems := by
  unfold applyAction
  dsimp only
  split
  · rfl
  · exact paymentModeEffect_billItems _

/-- C5: an accepted line gets the fresh id `itemCounter + 1` (a monotonic
counter never reused even after removal) and is appended at the end of the
sequence; removal filters out exactly the matching id, is a no-op for an
absent id, and preserves the order and ids of the remaining lines. -/
theorem lineId_assignment_and_removal (meds : List Medicine) (as : List Action) :
    let s := runActions (initialState meds) as
    (s.billItems.map BillItem.id).Pairwise (· < ·) ∧
    (∀ s2, handleAddMedicine s = (s2, none) →
      ∃ item, s2.billItems = s.billItems ++ [item] ∧ item.id = s.itemCounter + 1 ∧
        item.id ∉ s.billItems.map BillItem.id ∧ s2.itemCounter = s.itemCounter + 1) ∧
    (∀ i : Int, (applyAction s (Action.removeMedicine i)).billItems =
      s.billItems.filter (fun item => item.id != i)) ∧
    (∀ i : Int, i ∉ s.billItems.map BillItem.id →
      (applyAction s (Action.removeMedicine i)).billItems = s.billItems) ∧
    (∀ i : Int, ((applyAction s (Action.removeMedicine i)).billItems).Sublist s.billItems) := by
  intro s
  have hwf : ItemsWF s := runActions_wf (initialState_wf meds) as
  refine ⟨hwf.2, ?_, ?_, ?_, ?_⟩
  · intro s2 hadd
    rcases handleAddMedicine_cases s with ⟨_, t, ht⟩ | ⟨m, q, _, _, _, _, heq⟩
    · rw [hadd] at ht
      simp at ht
    · rw [hadd] at heq
      have hs2 : s2 = acceptMedicine s m q := congrArg Prod.fst heq
      subst hs2
      refine ⟨_, rfl, rfl, ?_, rfl⟩
      intro hmem
      obtain ⟨item, hitem, hid⟩ := List.mem_map.1 hmem
      have hid2 : item.id = s.itemCounter + 1 := hid
      have hle := (hwf.1 item hitem).2.2.1
      omega
  · intro i
    rw [applyAction_billItems]
    rfl
  · intro i hni
    rw [applyAction_billItems]
    show s.billItems.filter (fun item => item.id != i) = s.billItems
    rw [List.filter_eq_self]
    intro item hmem
    rw [bne_iff_ne]
    intro hcontra
    exact hni (hcontra ▸ List.mem_map_of_mem BillItem.id hmem)
  · intro i
    rw [applyAction_billItems]
    exact List.filter_sublist _

/-! ## The stock validator (claims C3, C4) -/

/-- Once the medicine is found and the quantity parses to a positive
integer, `handleAddMedicine` reduces to the stock check. -/
theorem handleAddMedicine_eval (s : State) (medicine : Medicine) (qty : Int)
    (hfind : s.medicines.find? (fun m => m.MName == s.selectedMedicine) = some medicine)
    (hparse : jsParseInt s.quantity = some qty) (hqty : 0 < qty)
    (hsel : s.selectedMedicine ≠ "") :
    handleAddMedicine s =
      if qty > medicine.CurrentStock then
        (s, some (Toast.insufficientStock medicine.CurrentStock qty))
      else (acceptMedicine s medicine qty, none) := by
  have hqne : s.quantity ≠ "" := by
    intro h
    rw [h] at hparse
    exact Option.noConfusion hparse
  have hcond : ¬(s.selectedMedicine = "" ∨ s.quantity = "") := by
    rintro (h | h)
    exacts [hsel h, hqne h]
  simp only [handleAddMedicine, if_neg hcond, hfind, hparse,
    if_neg (show ¬qty ≤ 0 by omega)]

/-- C3: with the medicine found and a positive parsed quantity, the stock
validator refuses the line — reporting the available and requested
quantities — iff the requested quantity strictly exceeds the available
stock; requesting exactly the available stock is accepted. -/
theorem stockValidator_boundary (s : State) (medicine : Medicine) (qty : Int)
    (hfind : s.medicines.find? (fun m => m.MName == s.selectedMedicine) = some medicine)
    (hparse : jsParseInt s.quantity = some qty) (hqty : 0 < qty)
    (hsel : s.selectedMedicine ≠ "") :
    ((handleAddMedicine s).2 = some (Toast.insufficientStock medicine.CurrentStock qty) ↔
      qty > medicine.CurrentStock) ∧
    (qty > medicine.CurrentStock →
      handleAddMedicine s = (s, some (Toast.insufficientStock medicine.CurrentStock qty))) ∧
    (qty ≤ medicine.CurrentStock →
      handleAddMedicine s = (acceptMedicine s medicine qty, none)) := by
  have hmain := handleAddMedicine_eval s medicine qty hfind hparse hqty hsel
  by_cases hgt : qty > medicine.CurrentStock
  · rw [hmain, if_pos hgt]
    exact ⟨⟨fun _ => hgt, fun _ => rfl⟩, fun _ => rfl, fun hle => absurd hgt (by omega)⟩
  · rw [hmain, if_neg hgt]
    refine ⟨⟨?_, fun h => absurd h hgt⟩, fun h => absurd h hgt, fun _ => rfl⟩
    intro hsnd
    exact Option.noConfusion hsnd

unseal Rat.add Rat.mul Rat.sub Rat.inv in
/-- Witness for C3: requesting exactly the 5 available units of `ibuMed`
is accepted (exact depletion allowed). -/
theorem stockValidator_boundary_witness :
    jsParseInt "5" = some 5 ∧ (0 : Int) < 5 ∧
    handleAddMedicine c3state = (acceptMedicine c3state ibuMed 5, none) :=
  ⟨by decide, by decide,
    (stockValidator_boundary c3state ibuMed 5 (by decide) (by decide) (by decide)
      (by decide)).2.2 (by decide)⟩

unseal Rat.add Rat.mul Rat.sub Rat.inv in
/-- C4 counterexample: the quantity entry `"2.5"` denotes the non-integer
5/2, yet `handleAddMedicine` does not reject it — `parseInt` truncates it
to 2 and the line is appended with quantity 2. -/
theorem addLine_nonInteger_accepted_cex :
    jsParseFloat "2.5" = some (5 / 2) ∧ ((5 : ℚ) / 2).den = 2 ∧
    jsParseInt "2.5" = some 2 ∧
    (handleAddMedicine cx4state).2 = none ∧
    (handleAddMedicine cx4state).1.billItems = cx4state.billItems ++ [paraLine] :=
  ⟨by decide, by decide, by decide, by decide, by decide⟩

/-- C4 (amended): `handleAddMedicine` leaves the bill unchanged and raises
an error toast when the medicine name is empty, or the quantity is empty,
unparseable, or parses (by integer truncation) to ≤ 0.  A non-integer
decimal entry is not rejected: `parseInt` truncates it and the line is
accepted with the truncated quantity when it is positive and within
stock. -/
theorem addLine_rejection_amended (s : State) :
    (∀ t, (handleAddMedicine s).2 = some t → (handleAddMedicine s).1 = s) ∧
    ((s.selectedMedicine = "" ∨ s.quantity = "" ∨ jsParseInt s.quantity = none ∨
        (∃ q, jsParseInt s.quantity = some q ∧ q ≤ 0)) →
      ∃ t, (handleAddMedicine s).2 = some t) ∧
    (∀ medicine qty,
      s.medicines.find? (fun m => m.MName == s.selectedMedicine) = some medicine →
      jsParseInt s.quantity = some qty → 0 < qty → qty ≤ medicine.CurrentStock →
      s.selectedMedicine ≠ "" →
      handleAddMedicine s = (acceptMedicine s medicine qty, none)) := by
  refine ⟨?_, ?_, ?_⟩
  · intro t ht
    rcases handleAddMedicine_cases s with ⟨heq, _⟩ | ⟨m, q, _, _, _, _, heq⟩
    · exact heq
    · rw [heq] at ht
      exact Option.noConfusion ht
  · intro hdisj
    unfold handleAddMedicine
    split
    · exact ⟨_, rfl⟩
    · next hcond =>
      split
      · exact ⟨_, rfl⟩
      · next medicine hfind =>
        split
        · exact ⟨_, rfl⟩
        · next qty hparse =>
          split
          · exact ⟨_, rfl⟩
          · next hpos =>
            split
            · exact ⟨_, rfl⟩
            · exfalso
              push_neg at hcond
              rcases hdisj with h | h | h | ⟨q, hq, hle⟩
              · exact hcond.1 h
              · exact hcond.2 h
              · rw [h] at hparse
                exact Option.noConfusion hparse
              · rw [hq] at hparse
                injection hparse with hqq
                omega
  · intro medicine qty hfind hparse hqty hstock hsel
    rw [handleAddMedicine_eval s medicine qty hfind hparse hqty hsel,
      if_neg (show ¬qty > medicine.CurrentStock by omega)]

/-! ## The submission validation (claims C2, C8, C10) -/

/-- Blocked validation means no request and an unchanged state. -/
theorem handleSubmit_blocked {s : State} {t : Toast} (h : submitValidation s = some t)
    (r : SubmitResult) : handleSubmit s r = (s, none) := by
  unfold handleSubmit
  rw [h]

/-- Passed validation means the invoice payload is posted. -/
theorem handleSubmit_posts {s : State} (hv : submitValidation s = none)
    (r : SubmitResult) : (handleSubmit s r).2 = some (invoiceData s) := by
  unfold handleSubmit
  rw [hv]
  cases r <;> rfl

/-- With the patient, line and phone checks passed, the validation chain
reduces to the payment checks. -/
theorem submitValidation_eval (s : State) (hname : ¬jsTrim s.patientName = "")
    (hitems : ¬s.billItems = []) (hmode : ¬s.paymentMode = "")
    (hphone : ¬(s.isNewPatient = true ∧ s.phoneNo ≠ "" ∧ isValidPhone s.phoneNo = false)) :
    submitValidation s =
      if s.paymentMode = "Both" then
        if |s.cashAmount.getD 0 + s.upiAmount.getD 0 - finalAmount s| > 1 / 100 then
          some (Toast.splitMismatch (s.cashAmount.getD 0 + s.upiAmount.getD 0) (finalAmount s))
        else none
      else none := by
  unfold submitValidation
  rw [if_neg hname, if_neg hitems, if_neg hmode, if_neg hphone]

/-- C2: given the patient, line and phone checks pass, payment validation
blocks submission exactly when the mode is unset, or the mode is `Both`
and `|cash + upi − finalAmount| > 0.01`; a violation is a hard error (the
state is unchanged, nothing is posted), and any other mode passes. -/
theorem paymentValidation_gate (s : State)
    (hname : jsTrim s.patientName ≠ "") (hitems : s.billItems ≠ [])
    (hphone : ¬(s.isNewPatient = true ∧ s.phoneNo ≠ "" ∧ isValidPhone s.phoneNo = false)) :
    (s.paymentMode = "" →
      submitValidation s = some Toast.selectPaymentMode ∧
      ∀ r, handleSubmit s r = (s, none)) ∧
    (s.paymentMode = "Both" →
      ((submitValidation s = none) ↔
        |s.cashAmount.getD 0 + s.upiAmount.getD 0 - finalAmount s| ≤ 1 / 100) ∧
      (|s.cashAmount.getD 0 + s.upiAmount.getD 0 - finalAmount s| > 1 / 100 →
        ∀ r, handleSubmit s r = (s, none)) ∧
      (|s.cashAmount.getD 0 + s.upiAmount.getD 0 - finalAmount s| ≤ 1 / 100 →
        ∀ r, (handleSubmit s r).2 = some (invoiceData s))) ∧
    (s.paymentMode ≠ "" → s.paymentMode ≠ "Both" → submitValidation s = none) := by
  refine ⟨?_, ?_, ?_⟩
  · intro hmode
    have hval : submitValidation s = some Toast.selectPaymentMode := by
      unfold submitValidation
      rw [if_neg hname, if_neg hitems, if_pos hmode]
    exact ⟨hval, fun r => handleSubmit_blocked hval r⟩
  · intro hboth
    have hmode : ¬s.paymentMode = "" := by
      rw [hboth]
      decide
    have hval := submitValidation_eval s hname hitems hmode hphone
    rw [if_pos hboth] at hval
    have hiff : (submitValidation s = none) ↔
        |s.cashAmount.getD 0 + s.upiAmount.getD 0 - finalAmount s| ≤ 1 / 100 := by
      constructor
      · intro h0
        by_contra habs
        rw [hval, if_pos (not_le.mp habs)] at h0
        exact Option.noConfusion h0
      · intro hle
        rw [hval, if_neg (not_lt.mpr hle)]
    refine ⟨hiff, ?_, ?_⟩
    · intro habs
      have hval2 : submitValidation s = some (Toast.splitMismatch
          (s.cashAmount.getD 0 + s.upiAmount.getD 0) (finalAmount s)) := by
        rw [hval, if_pos habs]
      exact fun r => handleSubmit_blocked hval2 r
    · intro hle r
      exact handleSubmit_posts (hiff.mpr hle) r
  · intro hmode hnboth
    rw [submitValidation_eval s hname hitems hmode hphone, if_neg hnboth]

/-- Witness for C2: a filled bill with no payment mode selected is blocked
with the payment-mode toast. -/
theorem paymentValidation_gate_witness :
    jsTrim c2state.patientName ≠ "" ∧
    submitValidation c2state = some Toast.selectPaymentMode :=
  ⟨by decide, ((paymentValidation_gate c2state (by decide) (by decide) (by decide)).1 rfl).1⟩

/-- A draft passing validation has at least one bill line. -/
theorem submitValidation_none_ne_nil {s : State} (hv : submitValidation s = none) :
    s.billItems ≠ [] := by
  unfold submitValidation at hv
  split at hv
  · exact Option.noConfusion hv
  · split at hv
    · exact Option.noConfusion hv
    · next h => exact h

/-- C8: once validation passes, the draft (bill lines, discount, payment
mode, cash/UPI amounts) is cleared iff the server reports success; on a
failure only the error banner changes and the draft is preserved. -/
theorem draft_cleared_iff_server_success (s : State) (hv : submitValidation s = none) :
    (∀ iid fa,
      (handleSubmit s (SubmitResult.success iid fa)).1.billItems = [] ∧
      (handleSubmit s (SubmitResult.success iid fa)).1.discount = none ∧
      (handleSubmit s (SubmitResult.success iid fa)).1.paymentMode = "" ∧
      (handleSubmit s (SubmitResult.success iid fa)).1.cashAmount = none ∧
      (handleSubmit s (SubmitResult.success iid fa)).1.upiAmount = none ∧
      (handleSubmit s (SubmitResult.success iid fa)).1.submitMessage =
        some (SubmitMessage.success iid fa) ∧
      (handleSubmit s (SubmitResult.success iid fa)).2 = some (invoiceData s)) ∧
    (∀ msg,
      (handleSubmit s (SubmitResult.failure msg)).1 =
        { s with submitMessage := some (SubmitMessage.error msg) } ∧
      (handleSubmit s (SubmitResult.failure msg)).1.billItems = s.billItems ∧
      (handleSubmit s (SubmitResult.failure msg)).1.billItems ≠ [] ∧
      (handleSubmit s (SubmitResult.failure msg)).2 = some (invoiceData s)) := by
  have hne := submitValidation_none_ne_nil hv
  constructor
  · intro iid fa
    unfold handleSubmit
    rw [hv]
    exact ⟨rfl, rfl, rfl, rfl, rfl, rfl, rfl⟩
  · intro msg
    unfold handleSubmit
    rw [hv]
    exact ⟨rfl, rfl, hne, rfl⟩

unseal Rat.add Rat.mul Rat.sub Rat.inv in
/-- Witness for C8: a failed request on a validated draft keeps the draft
and sets the error banner. -/
theorem draft_cleared_iff_server_success_witness :
    submitValidation validState = none ∧
    (handleSubmit validState (SubmitResult.failure "Network Error")).1 =
      { validState with submitMessage := some (SubmitMessage.error "Network Error") } :=
  ⟨by decide, ((draft_cleared_iff_server_success validState (by decide)).2 "Network Error").1⟩

/-- C10: once client validation passes, the posted amounts satisfy
`cash_amount + upi_amount = finalAmount` exactly for the single modes
(both derived from `finalAmount`, not from the fields), and within 0.01
for `Both` (the fields coerced with `getD 0` in both the check and the
payload). -/
theorem payload_payment_invariant (s : State) (hv : submitValidation s = none) :
    ((s.paymentMode = "Cash" ∨ s.paymentMode = "UPI") →
      (invoiceData s).cash_amount + (invoiceData s).upi_amount = finalAmount s) ∧
    (s.paymentMode = "Both" →
      (invoiceData s).cash_amount = s.cashAmount.getD 0 ∧
      (invoiceData s).upi_amount = s.upiAmount.getD 0 ∧
      |(invoiceData s).cash_amount + (invoiceData s).upi_amount - finalAmount s| ≤ 1 / 100) := by
  constructor
  · rintro (hC | hU)
    · have h1 : (invoiceData s).cash_amount = finalAmount s := by
        simp [invoiceData, hC]
      have h2 : (invoiceData s).upi_amount = 0 := by
        simp [invoiceData, hC]
      rw [h1, h2, add_zero]
    · have h1 : (invoiceData s).cash_amount = 0 := by
        simp [invoiceData, hU]
      have h2 : (invoiceData s).upi_amount = finalAmount s := by
        simp [invoiceData, hU]
      rw [h1, h2, zero_add]
  · intro hB
    have h1 : (invoiceData s).cash_amount = s.cashAmount.getD 0 := by
      simp [invoiceData, hB]
    have h2 : (invoiceData s).upi_amount = s.upiAmount.getD 0 := by
      simp [invoiceData, hB]
    refine ⟨h1, h2, ?_⟩
    rw [h1, h2]
    unfold submitValidation at hv
    split at hv
    · exact Option.noConfusion hv
    · split at hv
      · exact Option.noConfusion hv
      · split at hv
        · exact Option.noConfusion hv
        · split at hv
          · exact Option.noConfusion hv
          · split at hv
            · exact Option.noConfusion hv
            · next habs => exact not_lt.mp habs

unseal Rat.add Rat.mul Rat.sub Rat.inv in
/-- Witness for C10 at the validated Cash-mode draft. -/
theorem payload_payment_invariant_witness :
    submitValidation validState = none ∧
    (invoiceData validState).cash_amount + (invoiceData validState).upi_amount =
      finalAmount validState :=
  ⟨by decide, (payload_payment_invariant validState (by decide)).1 (Or.inl rfl)⟩

/-! ## The payment-mode auto-fill (claim C6) -/

/-- C6: switching the payment mode to `Cash` overwrites the cash field
with the (two-decimal) final amount and zeroes the UPI field, and
symmetrically for `UPI` — regardless of any prior entry in either field;
on two-decimal amounts the `toFixed(2)` rounding is exact, so the field
holds exactly `finalAmount`. -/
theorem paymentMode_autofill (s : State) :
    (s.paymentMode ≠ "Cash" →
      (applyAction s (Action.setPaymentMode "Cash")).cashAmount =
        some (toFixed2 (finalAmount s)) ∧
      (applyAction s (Action.setPaymentMode "Cash")).upiAmount = some 0) ∧
    (s.paymentMode ≠ "UPI" →
      (applyAction s (Action.setPaymentMode "UPI")).upiAmount =
        some (toFixed2 (finalAmount s)) ∧
      (applyAction s (Action.setPaymentMode "UPI")).cashAmount = some 0) ∧
    (∀ k : ℤ, finalAmount s = (k : ℚ) / 100 → toFixed2 (finalAmount s) = finalAmount s) := by
  refine ⟨?_, ?_, ?_⟩
  · intro hne
    have hcond : ¬((rawAction s (Action.setPaymentMode "Cash")).paymentMode = s.paymentMode ∧
        finalAmount (rawAction s (Action.setPaymentMode "Cash")) = finalAmount s) := by
      rintro ⟨h1, -⟩
      exact hne h1.symm
    unfold applyAction
    dsimp only
    rw [if_neg hcond]
    exact ⟨rfl, rfl⟩
  · intro hne
    have hcond : ¬((rawAction s (Action.setPaymentMode "UPI")).paymentMode = s.paymentMode ∧
        finalAmount (rawAction s (Action.setPaymentMode "UPI")) = finalAmount s) := by
      rintro ⟨h1, -⟩
      exact hne h1.symm
    unfold applyAction
    dsimp only
    rw [if_neg hcond]
    exact ⟨rfl, rfl⟩
  · intro k hk
    rw [hk]
    unfold toFixed2
    have h1 : (k : ℚ) / 100 * 100 = (k : ℚ) := div_mul_cancel₀ _ (by norm_num)
    rw [h1, Int.floor_int_add]
    norm_num

end Pharmacy

namespace Inventory

/-! ## The purchase-entry annotation (claim C7) and price update (claim C9) -/

/-- C7: an accepted purchase line stores
`difference = (medicineDetails?.MRP || 0) − (parseFloat(purchasePrice) || 0)`;
absent details behave as catalogue MRP 0, producing `−price`; the
annotation never blocks the addition — the line is appended and the
message cleared whatever the MRP and price values are. -/
theorem priceDifference_annotate (s : State)
    (hsel : s.selectedMedicine ≠ "")
    (hq : ¬(s.quantity = "" ∨ qtyNotPositive s.quantity = true)) :
    handleAddItem s =
      { s with
        items := s.items ++
          [{ id := s.itemCounter + 1
             item_name := s.selectedMedicine
             quantity := jsParseInt s.quantity
             batch_no := s.batchNo
             expiry_date := s.expiryDate
             price := s.purchasePrice.getD 0
             difference :=
               (s.medicineDetails.map MedicineDetails.MRP).getD 0 - s.purchasePrice.getD 0 }]
        itemCounter := s.itemCounter + 1
        selectedMedicine := ""
        medicineDetails := none
        quantity := ""
        batchNo := ""
        expiryDate := ""
        purchasePrice := none
        message := none } ∧
    (s.medicineDetails = none →
      (s.medicineDetails.map MedicineDetails.MRP).getD 0 - s.purchasePrice.getD 0 =
        -(s.purchasePrice.getD 0)) := by
  constructor
  · unfold handleAddItem
    rw [if_neg hsel, if_neg hq]
  · intro hnone
    rw [hnone]
    simp

unseal Rat.add Rat.mul Rat.sub Rat.inv in
/-- Witness for C7: buying Dolo-650 at 80 against catalogue MRP 100 stores
a price difference of 20. -/
theorem priceDifference_annotate_witness :
    (¬(c7state.quantity = "" ∨ qtyNotPositive c7state.quantity = true)) ∧
    (handleAddItem c7state).items.map BillItem.difference = [20] := by
  refine ⟨by decide, ?_⟩
  have h := (priceDifference_annotate c7state (by decide) (by decide)).1
  rw [h]
  decide

/-- C9: `handleUpdatePrice` treats a failed transport request as success:
the error branch produces exactly the success branch's outcome — success
banner, modal closed, medicine list refreshed — so the operator is never
shown a failure. -/
theorem priceUpdate_failure_reported_as_success (s : State) (msg : String) :
    handleUpdatePrice s (Except.error msg) = handleUpdatePrice s (Except.ok ()) ∧
    (handleUpdatePrice s (Except.error msg)).message =
      some { type := MessageType.success,
             text := "✓ Price updated for " ++ s.updateMedicineName } ∧
    (handleUpdatePrice s (Except.error msg)).showUpdatePriceModal = false ∧
    (handleUpdatePrice s (Except.error msg)).medicinesRefreshed = true :=
  ⟨rfl, rfl, rfl, rfl⟩

end Inventory
